import Mathlib

/-!
Shallow embedding of the calculation core of the `tc-calc` compensation
calculator (TypeScript), together with theorems checking its specification.

Modelling conventions:
* TypeScript `number` is modelled as `ℚ` (the financial code uses only
  field arithmetic, `min`/`max` and comparisons on small decimal values).
* Optional fields (`strikePrice?`, `currentStockPrice?`, ...) are `Option ℚ`;
  the JavaScript idiom `x || d` (which treats `undefined` *and* `0` as falsy)
  is embedded explicitly wherever it occurs.
* Dates are modelled as integer month indices (`ℤ`): `Date.setMonth` adds
  months; no claim under scrutiny depends on day-of-month normalisation.
* The exchange rate obtained from `CurrencyConverter.getCurrentExchangeRate`
  is threaded through the equity valuators as an explicit parameter `r`;
  the converter's process-wide cache is an explicit state record, and the
  two remote fetches are `Except`-valued parameters.
-/

namespace TcCalc

/-! ### Constants (`src/constants/israeli-tax.ts`)

Decimal literals of the source are written as exact fractions. -/

/-- One Israeli income-tax bracket: `{ min, max, rate }`; `max = none`
models the source's `Infinity` upper bound. -/
structure TaxBracket where
  lo : ℚ
  hi : Option ℚ
  rate : ℚ
deriving DecidableEq

/-- `ISRAELI_TAX_BRACKETS_2024.brackets` (monthly ILS). -/
def ISRAELI_TAX_BRACKETS_2024 : List TaxBracket :=
  [ { lo := 0, hi := some 7010, rate := 10/100 },
    { lo := 7010, hi := some 10060, rate := 14/100 },
    { lo := 10060, hi := some 16150, rate := 20/100 },
    { lo := 16150, hi := some 21240, rate := 31/100 },
    { lo := 21240, hi := some 42480, rate := 35/100 },
    { lo := 42480, hi := some 54130, rate := 47/100 },
    { lo := 54130, hi := none, rate := 50/100 } ]

/-- `BITUACH_LEUMI_2024.rate` (4%). -/
def BITUACH_LEUMI_RATE : ℚ := 4/100

/-- `BITUACH_LEUMI_2024.monthlyCeiling`. -/
def BITUACH_LEUMI_CEILING : ℚ := 47220

/-- `PENSION_RATES_2024.employee.rate` (6%). -/
def PENSION_EMPLOYEE_RATE : ℚ := 6/100

/-- `PENSION_RATES_2024.employer.rate` (6%). -/
def PENSION_EMPLOYER_RATE : ℚ := 6/100

/-- `PENSION_RATES_2024.maxMonthlySalaryForPension`. -/
def PENSION_MAX_MONTHLY_SALARY : ℚ := 42480

/-- `STUDY_FUND_RATES_2024.employee.rate` (2.5%). -/
def STUDY_FUND_EMPLOYEE_RATE : ℚ := 25/1000

/-- `STUDY_FUND_RATES_2024.employer.rate` (7.5%). -/
def STUDY_FUND_EMPLOYER_RATE : ℚ := 75/1000

/-- `STUDY_FUND_RATES_2024.maxMonthlySalaryForStudyFund`. -/
def STUDY_FUND_MAX_MONTHLY_SALARY : ℚ := 33500

/-- `CAPITAL_GAINS_TAX_2024.rate` (25%). -/
def CAPITAL_GAINS_RATE : ℚ := 25/100

/-- `CAPITAL_GAINS_TAX_2024.exemptionThreshold` (annual ILS). -/
def CAPITAL_GAINS_EXEMPTION_THRESHOLD : ℚ := 680000

/-- `TAX_POINTS_2024.taxPointValue` (ILS per tax point, monthly). -/
def TAX_POINT_VALUE : ℚ := 245

/-- `TAX_POINTS_2024.singlePersonTaxPoints`. -/
def SINGLE_PERSON_TAX_POINTS : ℚ := 225/100

/-! ### Currency conversion (`CurrencyConverter`) -/

/-- The two currencies supported by the converter. -/
inductive Currency
  | USD
  | ILS
deriving DecidableEq

/-- `ExchangeRate`: `{ rate, lastUpdated, source }`; `lastUpdated` is an
abstract timestamp (`ℤ`). -/
structure ExchangeRate where
  rate : ℚ
  lastUpdated : ℤ
  source : String
deriving DecidableEq

/-- `FALLBACK_EXCHANGE_RATE`: `usdToIls = 3.7`, source `'fallback'`; its
`lastUpdated` (`new Date('2024-01-01')`) is abstracted to timestamp `0`. -/
def FALLBACK_EXCHANGE_RATE : ExchangeRate :=
  { rate := 37/10, lastUpdated := 0, source := "fallback" }

/-- `CurrencyConverter.CACHE_DURATION` (one hour in milliseconds). -/
def CACHE_DURATION : ℤ := 60 * 60 * 1000

/-- The converter's process-wide mutable state: `cachedRate` and
`cacheExpiry`. -/
structure ConverterState where
  cachedRate : Option ExchangeRate
  cacheExpiry : ℤ
deriving DecidableEq

/-- The fallback chain of `getCurrentExchangeRate` after a cache miss:
try the primary fetch, then the Bank-of-Israel fetch, then the (possibly
expired) cached rate, then `FALLBACK_EXCHANGE_RATE`.  Successful fetches
overwrite the cache with expiry `now + CACHE_DURATION`. -/
def fetchChain (st : ConverterState) (now : ℤ)
    (primary secondary : Except String ExchangeRate) :
    ExchangeRate × ConverterState :=
  match primary with
  | Except.ok rate => (rate, { cachedRate := some rate, cacheExpiry := now + CACHE_DURATION })
  | Except.error _ =>
    match secondary with
    | Except.ok rate => (rate, { cachedRate := some rate, cacheExpiry := now + CACHE_DURATION })
    | Except.error _ =>
      match st.cachedRate with
      | some cached => (cached, st)
      | none => (FALLBACK_EXCHANGE_RATE, st)

/-- `CurrencyConverter.getCurrentExchangeRate`.  All fetch failures are
caught internally (the TypeScript function never rethrows), which the
embedding reflects by being a total function into `ExchangeRate`. -/
def getCurrentExchangeRate (st : ConverterState) (now : ℤ)
    (primary secondary : Except String ExchangeRate) :
    ExchangeRate × ConverterState :=
  match st.cachedRate with
  | some cached =>
      if now < st.cacheExpiry then (cached, st)
      else fetchChain st now primary secondary
  | none => fetchChain st now primary secondary

/-- `CurrencyConverter.convertUSDToILS`, with the current rate `r` made
an explicit parameter: `usdAmount * rate.rate`. -/
def convertUSDToILS (r usdAmount : ℚ) : ℚ := usdAmount * r

/-- `CurrencyConverter.convertILSToUSD`: `ilsAmount / rate.rate`. -/
def convertILSToUSD (r ilsAmount : ℚ) : ℚ := ilsAmount / r

/-- `CurrencyConverter.convertCurrency`.  The `fromCurrency === toCurrency`
branch returns the amount unchanged; the final `throw` of the source is
unreachable for the two-currency type, so the match is exhaustive without
an error case. -/
def convertCurrency (r amount : ℚ) : Currency → Currency → ℚ
  | Currency.USD, Currency.USD => amount
  | Currency.ILS, Currency.ILS => amount
  | Currency.USD, Currency.ILS => convertUSDToILS r amount
  | Currency.ILS, Currency.USD => convertILSToUSD r amount

/-! ### Tax calculator (`TaxCalculator`) -/

/-- The bracket capacity used by `calculateIncomeTax`:
`bracket.max === Infinity ? remainingIncome : bracket.max - bracket.min`. -/
def bracketWidth (bracket : TaxBracket) (remainingIncome : ℚ) : ℚ :=
  match bracket.hi with
  | none => remainingIncome
  | some m => m - bracket.lo

/-- The bracket loop of `calculateIncomeTax`: walks the bracket list,
taxing `min(remaining, bracketWidth)` in each bracket (`Infinity`-topped
brackets consume all remaining income) and stopping once the remaining
income is exhausted. -/
def bracketLoop : List TaxBracket → ℚ → ℚ
  | [], _ => 0
  | bracket :: rest, remainingIncome =>
    if remainingIncome ≤ 0 then 0
    else
      min remainingIncome (bracketWidth bracket remainingIncome) * bracket.rate +
        bracketLoop rest
          (remainingIncome - min remainingIncome (bracketWidth bracket remainingIncome))

/-- `TaxCalculator.calculateIncomeTax`: subtract the tax-point credit,
floor at 0, run the 2024 bracket table, floor the result at 0. -/
def calculateIncomeTax (monthlySalary taxPoints : ℚ) : ℚ :=
  let taxPointCredit := taxPoints * TAX_POINT_VALUE
  let taxableIncome := max 0 (monthlySalary - taxPointCredit)
  max 0 (bracketLoop ISRAELI_TAX_BRACKETS_2024 taxableIncome)

/-- `TaxCalculator.calculateBituachLeumi`: `min(salary, ceiling) * rate`. -/
def calculateBituachLeumi (monthlySalary : ℚ) : ℚ :=
  min monthlySalary BITUACH_LEUMI_CEILING * BITUACH_LEUMI_RATE

/-- Employee/employer contribution pair returned by the pension and
study-fund calculators. -/
structure ContributionPair where
  employee : ℚ
  employer : ℚ
  total : ℚ
deriving DecidableEq

/-- `TaxCalculator.calculatePensionContributions`. -/
def calculatePensionContributions (monthlySalary : ℚ) : ContributionPair :=
  let applicableSalary := min monthlySalary PENSION_MAX_MONTHLY_SALARY
  let employeeContribution := applicableSalary * PENSION_EMPLOYEE_RATE
  let employerContribution := applicableSalary * PENSION_EMPLOYER_RATE
  { employee := employeeContribution,
    employer := employerContribution,
    total := employeeContribution + employerContribution }

/-- `TaxCalculator.calculateStudyFundContributions`. -/
def calculateStudyFundContributions (monthlySalary : ℚ) : ContributionPair :=
  let applicableSalary := min monthlySalary STUDY_FUND_MAX_MONTHLY_SALARY
  let employeeContribution := applicableSalary * STUDY_FUND_EMPLOYEE_RATE
  let employerContribution := applicableSalary * STUDY_FUND_EMPLOYER_RATE
  { employee := employeeContribution,
    employer := employerContribution,
    total := employeeContribution + employerContribution }

/-- `TaxCalculator.calculateCapitalGains`: 0 for non-positive gains, else
`max(0, gains - exemption) * rate`. -/
def calculateCapitalGains (equityGains : ℚ) : ℚ :=
  if equityGains ≤ 0 then 0
  else max 0 (equityGains - CAPITAL_GAINS_EXEMPTION_THRESHOLD) * CAPITAL_GAINS_RATE

/-- Result record of `TaxCalculator.getNetSalary`. -/
structure NetSalaryResult where
  grossSalary : ℚ
  netSalary : ℚ
  totalDeductions : ℚ
deriving DecidableEq

/-- `TaxCalculator.getNetSalary`: gross minus (income tax + Bituach Leumi
+ employee pension + employee study fund), with the net floored at 0. -/
def getNetSalary (grossMonthlySalary taxPoints : ℚ) : NetSalaryResult :=
  let incomeTax := calculateIncomeTax grossMonthlySalary taxPoints
  let bituachLeumi := calculateBituachLeumi grossMonthlySalary
  let pensionContributions := calculatePensionContributions grossMonthlySalary
  let studyFundContributions := calculateStudyFundContributions grossMonthlySalary
  let totalDeductions := incomeTax + bituachLeumi +
    pensionContributions.employee + studyFundContributions.employee
  { grossSalary := grossMonthlySalary,
    netSalary := max 0 (grossMonthlySalary - totalDeductions),
    totalDeductions := totalDeductions }

/-! ### Equity data model (`src/types`) -/

/-- `EquityGrant.type`. -/
inductive EquityType
  | RSU
  | ISO
  | NQSO
  | ESPP
deriving DecidableEq

/-- `EquityGrant.companyStage`. -/
inductive CompanyStage
  | startup
  | growth
  | preIpo
  | public
deriving DecidableEq

/-- `VestingSchedule.type`. -/
inductive VestingType
  | standard
  | cliff
  | custom
deriving DecidableEq

/-- `VestingSchedule` (the `frequency` field is never read by the
calculation code and is omitted).  `totalYears` is modelled as `ℕ`, and
`cliffMonths` as an optional whole number of months, matching their use
as loop bound and month offset. -/
structure VestingSchedule where
  type : VestingType
  totalYears : ℕ
  cliffMonths : Option ℕ
  percentages : Option (List ℚ)
deriving DecidableEq

/-- `EquityGrant`.  `vestingStartMonth` is the vesting-start date as a
month index; fields never read by the calculation code (`id`, `grantDate`,
`companyValuation`) are omitted.  `vestingSchedule` is optional because
`calculateVestingSchedule` guards on its absence. -/
structure EquityGrant where
  type : EquityType
  amount : ℚ
  vestingStartMonth : ℤ
  vestingSchedule : Option VestingSchedule
  strikePrice : Option ℚ
  currentStockPrice : Option ℚ
  companyStage : Option CompanyStage
deriving DecidableEq

/-- `VestingEvent`; `dateMonth` is the event date as a month index. -/
structure VestingEvent where
  dateMonth : ℤ
  sharesVested : ℚ
  cumulativeShares : ℚ
  estimatedValue : ℚ
deriving DecidableEq

/-- Result record of the three grant valuators (the human-readable
`assumptions` strings are presentation-only and omitted). -/
structure EquityValuation where
  currentValue : ℚ
  postTaxValue : ℚ
  riskAdjustedValue : ℚ
  vestingSchedule : List VestingEvent
deriving DecidableEq

/-! ### Equity valuator (`EquityValuator`) -/

/-- One iteration of the `standard` vesting loop of
`calculateVestingSchedule`: quarterly tranche `amount / (totalYears*4)`,
with the first tranche augmented by the cliff back-vest factor
`cliffMonths/3 + 1` when a cliff is configured. -/
def standardEvent (startDate : ℤ) (cliffMonths : ℕ) (amount currentStockPrice : ℚ)
    (totalYears : ℕ) (quarter : ℕ) : VestingEvent :=
  let quarterlyShares := amount / ((totalYears : ℚ) * 4)
  let sharesThisVesting :=
    if quarter = 0 ∧ 0 < cliffMonths then
      quarterlyShares * ((cliffMonths : ℚ) / 3 + 1)
    else quarterlyShares
  { dateMonth := startDate + (cliffMonths : ℤ) + (quarter : ℤ) * 3,
    sharesVested := sharesThisVesting,
    cumulativeShares := ((quarter : ℚ) + 1) * quarterlyShares,
    estimatedValue := sharesThisVesting * currentStockPrice }

/-- The `custom` vesting loop of `calculateVestingSchedule`: one event per
percentage entry, spaced 12 months apart, with a running cumulative total. -/
def customEvents (startDate : ℤ) (cliffMonths : ℕ) (amount currentStockPrice : ℚ) :
    List ℚ → ℕ → ℚ → List VestingEvent
  | [], _, _ => []
  | percentage :: rest, index, cumulativeShares =>
    let sharesThisVesting := amount * (percentage / 100)
    let newCumulative := cumulativeShares + sharesThisVesting
    { dateMonth := startDate + (cliffMonths : ℤ) + (index : ℤ) * 12,
      sharesVested := sharesThisVesting,
      cumulativeShares := newCumulative,
      estimatedValue := sharesThisVesting * currentStockPrice } ::
      customEvents startDate cliffMonths amount currentStockPrice rest (index + 1) newCumulative

/-- `EquityValuator.calculateVestingSchedule`. -/
def calculateVestingSchedule (grant : EquityGrant) : List VestingEvent :=
  match grant.vestingSchedule with
  | none => []
  | some vs =>
    let currentStockPrice := grant.currentStockPrice.getD 0
    let startDate := grant.vestingStartMonth
    let cliffMonths := vs.cliffMonths.getD 0
    match vs.type with
    | VestingType.standard =>
        (List.range (vs.totalYears * 4)).map
          (standardEvent startDate cliffMonths grant.amount currentStockPrice vs.totalYears)
    | VestingType.cliff =>
        [{ dateMonth := startDate + (cliffMonths : ℤ),
           sharesVested := grant.amount,
           cumulativeShares := grant.amount,
           estimatedValue := grant.amount * currentStockPrice }]
    | VestingType.custom =>
        match vs.percentages with
        | none => []
        | some percentages =>
            customEvents startDate cliffMonths grant.amount currentStockPrice percentages 0 0

/-- `EquityValuator.applyRiskDiscount`'s stage table.  All four stages are
present in the table, so the `|| 0.5` unknown-stage fallback of the source
is unreachable for the typed stage enumeration. -/
def discountFactor : CompanyStage → ℚ
  | CompanyStage.startup => 3/10
  | CompanyStage.growth => 6/10
  | CompanyStage.preIpo => 8/10
  | CompanyStage.public => 1

/-- `EquityValuator.applyRiskDiscount`. -/
def applyRiskDiscount (value : ℚ) (companyStage : CompanyStage) : ℚ :=
  value * discountFactor companyStage

/-- `grants[0]?.companyStage || 'public'`: the company stage of the first
grant of the (unfiltered) input list, defaulting to `public` when the list
is empty or the first grant has no stage. -/
def headCompanyStage (grants : List EquityGrant) : CompanyStage :=
  (grants.head?.bind EquityGrant.companyStage).getD CompanyStage.public

/-- Per-RSU-grant ILS value inside `valueRSUs`: `amount * currentStockPrice`
converted at rate `r`, with the conversion skipped (value 0) unless the
stock price is strictly positive. -/
def rsuGrantValueILS (r : ℚ) (g : EquityGrant) : ℚ :=
  let currentStockPrice := g.currentStockPrice.getD 0
  if 0 < currentStockPrice then convertUSDToILS r (g.amount * currentStockPrice) else 0

/-- Per-RSU-grant post-tax value inside `valueRSUs`: basis
(`taxableValueAtVesting`) is the vesting value itself, capital gains are
`max(0, value - basis)`, ordinary income is taxed at a flat 35%. -/
def rsuPostTaxILS (r : ℚ) (g : EquityGrant) : ℚ :=
  let grantValueILS := rsuGrantValueILS r g
  let taxableValueAtVesting := grantValueILS
  let capitalGains := max 0 (grantValueILS - taxableValueAtVesting)
  let capitalGainsTax := calculateCapitalGains capitalGains
  let ordinaryIncomeTax := taxableValueAtVesting * (35/100)
  let totalTax := ordinaryIncomeTax + capitalGainsTax
  max 0 (grantValueILS - totalTax)

/-- `EquityValuator.valueRSUs`, with the exchange rate `r` explicit. -/
def valueRSUs (r : ℚ) (grants : List EquityGrant) : EquityValuation :=
  let rsus := grants.filter (fun g => g.type == EquityType.RSU)
  let totalCurrentValue := (rsus.map (rsuGrantValueILS r)).sum
  { currentValue := totalCurrentValue,
    postTaxValue := (rsus.map (rsuPostTaxILS r)).sum,
    riskAdjustedValue := applyRiskDiscount totalCurrentValue (headCompanyStage grants),
    vestingSchedule :=
      ((rsus.map calculateVestingSchedule).flatten).mergeSort
        (fun a b => decide (a.dateMonth ≤ b.dateMonth)) }

/-- Per-option-grant ILS value inside `valueStockOptions`: intrinsic value
`max(0, currentPrice - strikePrice)` per share, converted at rate `r`, with
the conversion skipped (value 0) unless the intrinsic value is positive. -/
def optionGrantValueILS (r : ℚ) (g : EquityGrant) : ℚ :=
  let currentStockPrice := g.currentStockPrice.getD 0
  let strikePrice := g.strikePrice.getD 0
  let intrinsicValue := max 0 (currentStockPrice - strikePrice)
  if 0 < intrinsicValue then convertUSDToILS r (g.amount * intrinsicValue) else 0

/-- Per-option-grant post-tax value inside `valueStockOptions`: capital
gains treatment for ISOs, flat 35% ordinary income for NQSOs. -/
def optionPostTaxILS (r : ℚ) (g : EquityGrant) : ℚ :=
  let grantValueILS := optionGrantValueILS r g
  if g.type == EquityType.ISO then
    max 0 (grantValueILS - calculateCapitalGains grantValueILS)
  else
    max 0 (grantValueILS - grantValueILS * (35/100))

/-- `EquityValuator.valueStockOptions`, with the exchange rate `r` explicit. -/
def valueStockOptions (r : ℚ) (grants : List EquityGrant) : EquityValuation :=
  let options := grants.filter
    (fun g => g.type == EquityType.ISO || g.type == EquityType.NQSO)
  let totalCurrentValue := (options.map (optionGrantValueILS r)).sum
  { currentValue := totalCurrentValue,
    postTaxValue := (options.map (optionPostTaxILS r)).sum,
    riskAdjustedValue := applyRiskDiscount totalCurrentValue (headCompanyStage grants),
    vestingSchedule :=
      ((options.map calculateVestingSchedule).flatten).mergeSort
        (fun a b => decide (a.dateMonth ≤ b.dateMonth)) }

/-- The ESPP purchase price inside `valueESPP`:
`grant.strikePrice || currentStockPrice * 0.85`.  JavaScript `||` treats
an explicit strike price of `0` as falsy, so `0` also falls back to the
85%-of-price default. -/
def esppPurchasePrice (g : EquityGrant) : ℚ :=
  let currentStockPrice := g.currentStockPrice.getD 0
  match g.strikePrice with
  | none => currentStockPrice * (85/100)
  | some s => if s = 0 then currentStockPrice * (85/100) else s

/-- Per-ESPP-grant ILS value inside `valueESPP`: `amount * discount`
converted at rate `r`, with the conversion skipped (value 0) unless the
discount is strictly positive. -/
def esppGrantValueILS (r : ℚ) (g : EquityGrant) : ℚ :=
  let currentStockPrice := g.currentStockPrice.getD 0
  let discount := currentStockPrice - esppPurchasePrice g
  if 0 < discount then convertUSDToILS r (g.amount * discount) else 0

/-- Per-ESPP-grant post-tax value inside `valueESPP`: flat 35% ordinary
income on the discount. -/
def esppPostTaxILS (r : ℚ) (g : EquityGrant) : ℚ :=
  let grantValueILS := esppGrantValueILS r g
  max 0 (grantValueILS - grantValueILS * (35/100))

/-- `EquityValuator.valueESPP`, with the exchange rate `r` explicit: no
vesting events, and the risk-adjusted value is the current value itself. -/
def valueESPP (r : ℚ) (grants : List EquityGrant) : EquityValuation :=
  let espps := grants.filter (fun g => g.type == EquityType.ESPP)
  let totalCurrentValue := (espps.map (esppGrantValueILS r)).sum
  { currentValue := totalCurrentValue,
    postTaxValue := (espps.map (esppPostTaxILS r)).sum,
    riskAdjustedValue := totalCurrentValue,
    vestingSchedule := [] }

/-! ### Input validation (`CompensationCalculator.validateInputs`) -/

/-- `SalaryData`, restricted to the fields `validateInputs` reads. -/
structure SalaryData where
  baseSalary : ℚ
  currency : Currency
deriving DecidableEq

/-- One fund configuration (`pensionFund` / `studyFund`), restricted to
the field `validateInputs` reads. -/
structure FundConfig where
  employerContribution : ℚ
deriving DecidableEq

/-- `BenefitsData`, restricted to the fields `validateInputs` reads. -/
structure BenefitsData where
  pensionFund : FundConfig
  studyFund : FundConfig
  vacationDays : ℚ
deriving DecidableEq

/-- `CompensationPackage`, restricted to the fields `validateInputs`
reads (`grants` is `equity.grants`). -/
structure CompensationPackage where
  salary : SalaryData
  benefits : BenefitsData
  grants : List EquityGrant
deriving DecidableEq

/-- Validation message for a non-positive grant amount. -/
def amountError : String := "Equity grant amount must be greater than 0"

/-- Validation message for a missing/invalid option strike price. -/
def strikePriceError : String := "Strike price is required for stock options"

/-- Validation message for a negative current stock price. -/
def stockPriceError : String := "Current stock price must be positive"

/-- JavaScript truthiness test `!grant.strikePrice`: `undefined` and `0`
are falsy. -/
def strikeFalsy : Option ℚ → Bool
  | none => true
  | some s => s == 0

/-- The comparison `grant.strikePrice < 0` (only reached when the strike
price is truthy). -/
def strikeNegative : Option ℚ → Bool
  | none => false
  | some s => decide (s < 0)

/-- The condition `grant.currentStockPrice && grant.currentStockPrice < 0`
guarding the stock-price error. -/
def stockPriceBad : Option ℚ → Bool
  | none => false
  | some p => !(p == 0) && decide (p < 0)

/-- The per-grant error block of `validateInputs`, in source order:
amount, strike price (options only), current stock price. -/
def grantErrors (grant : EquityGrant) : List String :=
  (if grant.amount ≤ 0 then [amountError] else []) ++
  (if (grant.type == EquityType.ISO || grant.type == EquityType.NQSO)
      && (strikeFalsy grant.strikePrice || strikeNegative grant.strikePrice) then
    [strikePriceError] else []) ++
  (if stockPriceBad grant.currentStockPrice then [stockPriceError] else [])

/-- Result record of `validateInputs`. -/
structure ValidationResult where
  isValid : Bool
  errors : List String
deriving DecidableEq

/-- Validation message for a non-positive base salary. -/
def baseSalaryError : String := "Base salary must be greater than 0"

/-- Validation message for an implausibly high ILS salary. -/
def highSalaryIlsError : String :=
  "Monthly salary seems unusually high. Please verify the amount."

/-- Validation message for an implausibly high USD salary. -/
def highSalaryUsdError : String :=
  "Monthly salary in USD seems unusually high. Please verify the amount."

/-- Validation message for an out-of-range pension contribution. -/
def pensionRangeError : String :=
  "Pension fund employer contribution should be between 0% and 10%"

/-- Validation message for an out-of-range study-fund contribution. -/
def studyFundRangeError : String :=
  "Study fund employer contribution should be between 0% and 15%"

/-- Validation message for out-of-range vacation days. -/
def vacationRangeError : String := "Vacation days should be between 0 and 50"

/-- `CompensationCalculator.validateInputs`.  The guard
`!packageData.salary.baseSalary || baseSalary <= 0` is the falsy-or-≤0
test (`0` is falsy, so the two disjuncts coincide with `≤ 0`, spelled out
here as in the source); the `if (packageData.equity.grants)` guard is
always true (arrays are truthy) and the grant list is always scanned. -/
def validateInputs (packageData : CompensationPackage) : ValidationResult :=
  let errors : List String :=
    (if packageData.salary.baseSalary == 0 || decide (packageData.salary.baseSalary ≤ 0) then
      [baseSalaryError] else []) ++
    (if decide (200000 < packageData.salary.baseSalary)
        && (packageData.salary.currency == Currency.ILS) then
      [highSalaryIlsError] else []) ++
    (if decide (50000 < packageData.salary.baseSalary)
        && (packageData.salary.currency == Currency.USD) then
      [highSalaryUsdError] else []) ++
    (if decide (packageData.benefits.pensionFund.employerContribution < 0)
        || decide (10 < packageData.benefits.pensionFund.employerContribution) then
      [pensionRangeError] else []) ++
    (if decide (packageData.benefits.studyFund.employerContribution < 0)
        || decide (15 < packageData.benefits.studyFund.employerContribution) then
      [studyFundRangeError] else []) ++
    (if decide (packageData.benefits.vacationDays < 0)
        || decide (50 < packageData.benefits.vacationDays) then
      [vacationRangeError] else []) ++
    (packageData.grants.map grantErrors).flatten
  { isValid := errors.isEmpty, errors := errors }

/-! ## Helper lemmas -/

/-- Every 2024 bracket has a non-negative rate, and every bounded bracket
has its upper bound at or above its lower bound. -/
lemma bracketsSane : ∀ b ∈ ISRAELI_TAX_BRACKETS_2024,
    0 ≤ b.rate ∧ ∀ m ∈ b.hi, b.lo ≤ m := by
  intro b hb
  simp only [ISRAELI_TAX_BRACKETS_2024, List.mem_cons, List.not_mem_nil, or_false] at hb
  rcases hb with h | h | h | h | h | h | h <;> subst h <;>
    refine ⟨by norm_num, ?_⟩ <;> intro m hm <;>
    simp only [Option.mem_def, Option.some.injEq] at hm <;> first
      | (subst hm; norm_num)
      | exact absurd hm (by simp)

/-- The bracket loop never returns a negative tax. -/
lemma bracketLoop_nonneg (bs : List TaxBracket)
    (hb : ∀ b ∈ bs, 0 ≤ b.rate ∧ ∀ m ∈ b.hi, b.lo ≤ m) :
    ∀ rem : ℚ, 0 ≤ bracketLoop bs rem := by
  induction bs with
  | nil => intro rem; simp [bracketLoop]
  | cons b rest ih =>
    intro rem
    simp only [bracketLoop]
    split_ifs with h
    · exact le_rfl
    · push_neg at h
      obtain ⟨hrate, hwidth⟩ := hb b (List.mem_cons_self b rest)
      have hrest : ∀ x ∈ rest, 0 ≤ x.rate ∧ ∀ m ∈ x.hi, x.lo ≤ m :=
        fun x hx => hb x (List.mem_cons_of_mem b hx)
      have ht : 0 ≤ min rem (bracketWidth b rem) := by
        cases hhi : b.hi with
        | none => simp [bracketWidth, hhi, h.le]
        | some m =>
          have : b.lo ≤ m := hwidth m (by simp [hhi])
          exact le_min h.le (by simp [bracketWidth, hhi]; linarith)
      exact add_nonneg (mul_nonneg ht hrate) (ih hrest _)

/-- The bracket loop is monotone in the remaining taxable income. -/
lemma bracketLoop_mono (bs : List TaxBracket)
    (hb : ∀ b ∈ bs, 0 ≤ b.rate ∧ ∀ m ∈ b.hi, b.lo ≤ m) :
    ∀ r1 r2 : ℚ, r1 ≤ r2 → bracketLoop bs r1 ≤ bracketLoop bs r2 := by
  induction bs with
  | nil => intro r1 r2 _; simp [bracketLoop]
  | cons b rest ih =>
    intro r1 r2 h12
    obtain ⟨hrate, hwidth⟩ := hb b (List.mem_cons_self b rest)
    have hrest : ∀ x ∈ rest, 0 ≤ x.rate ∧ ∀ m ∈ x.hi, x.lo ≤ m :=
      fun x hx => hb x (List.mem_cons_of_mem b hx)
    simp only [bracketLoop]
    by_cases h1 : r1 ≤ 0
    · rw [if_pos h1]
      have := bracketLoop_nonneg (b :: rest) hb r2
      simpa [bracketLoop] using this
    · have h2 : ¬ r2 ≤ 0 := fun h2 => h1 (le_trans h12 h2)
      rw [if_neg h1, if_neg h2]
      push_neg at h1 h2
      cases hhi : b.hi with
      | none =>
        simp only [bracketWidth, hhi, min_self, sub_self]
        exact add_le_add (mul_le_mul_of_nonneg_right h12 hrate) le_rfl
      | some m =>
        simp only [bracketWidth, hhi]
        have t12 : min r1 (m - b.lo) ≤ min r2 (m - b.lo) := min_le_min h12 le_rfl
        have rem12 : r1 - min r1 (m - b.lo) ≤ r2 - min r2 (m - b.lo) := by
          rcases le_total r1 (m - b.lo) with hle | hle
          · rw [min_eq_left hle, sub_self]
            exact sub_nonneg.mpr (min_le_left r2 (m - b.lo))
          · rw [min_eq_right hle, min_eq_right (le_trans hle h12)]
            exact sub_le_sub_right h12 _
        exact add_le_add (mul_le_mul_of_nonneg_right t12 hrate) (ih hrest _ _ rem12)

/-! ## Claims -/

/-- C4: for monthly salaries `S ≥ 0`, `calculateIncomeTax S 0` is
non-negative and monotonically non-decreasing in `S`, and
`calculateIncomeTax 0 p = 0` for every tax-point value `p ≥ 0`. -/
theorem C4_income_tax_props :
    (∀ S : ℚ, 0 ≤ S → 0 ≤ calculateIncomeTax S 0) ∧
    (∀ S1 S2 : ℚ, 0 ≤ S1 → S1 ≤ S2 →
      calculateIncomeTax S1 0 ≤ calculateIncomeTax S2 0) ∧
    (∀ p : ℚ, 0 ≤ p → calculateIncomeTax 0 p = 0) := by
  refine ⟨fun S _ => le_max_left 0 _, fun S1 S2 _ h12 => ?_, fun p hp => ?_⟩
  · unfold calculateIncomeTax
    refine max_le_max le_rfl ?_
    exact bracketLoop_mono _ bracketsSane _ _ (max_le_max le_rfl (sub_le_sub_right h12 _))
  · have hcredit : max 0 (0 - p * TAX_POINT_VALUE) = 0 := by
      apply max_eq_left
      have : 0 ≤ p * TAX_POINT_VALUE := mul_nonneg hp (by norm_num [TAX_POINT_VALUE])
      linarith
    show max 0 (bracketLoop ISRAELI_TAX_BRACKETS_2024 (max 0 (0 - p * TAX_POINT_VALUE))) = 0
    rw [hcredit]
    simp [ISRAELI_TAX_BRACKETS_2024, bracketLoop]

/-- C4 witness: the three properties instantiated at concrete inputs. -/
theorem C4_witness :
    0 ≤ calculateIncomeTax 1 0 ∧
    calculateIncomeTax 1 0 ≤ calculateIncomeTax 2 0 ∧
    calculateIncomeTax 0 1 = 0 :=
  ⟨C4_income_tax_props.1 1 (by norm_num),
   C4_income_tax_props.2.1 1 2 (by norm_num) (by norm_num),
   C4_income_tax_props.2.2 1 (by norm_num)⟩

/-- C5: when the primary and secondary exchange-rate fetches both fail and
no rate is cached, `getCurrentExchangeRate` returns the hardcoded fallback
rate (`usdToIls = 3.7`, source `'fallback'`); the embedding is a total
function, reflecting that the source catches every fetch failure instead
of rethrowing. -/
theorem C5_fallback_rate (st : ConverterState) (now : ℤ) (e1 e2 : String)
    (hcache : st.cachedRate = none) :
    getCurrentExchangeRate st now (Except.error e1) (Except.error e2)
      = (FALLBACK_EXCHANGE_RATE, st) ∧
    FALLBACK_EXCHANGE_RATE.rate = 37/10 ∧
    FALLBACK_EXCHANGE_RATE.source = "fallback" := by
  refine ⟨?_, rfl, rfl⟩
  simp [getCurrentExchangeRate, fetchChain, hcache]

/-- C5 witness: the fallback result at a concrete empty cache state. -/
theorem C5_witness :
    getCurrentExchangeRate { cachedRate := none, cacheExpiry := 0 } 0
        (Except.error ("primary down")) (Except.error ("secondary down"))
      = (FALLBACK_EXCHANGE_RATE, { cachedRate := none, cacheExpiry := 0 }) ∧
    FALLBACK_EXCHANGE_RATE.rate = 37/10 ∧
    FALLBACK_EXCHANGE_RATE.source = "fallback" :=
  C5_fallback_rate { cachedRate := none, cacheExpiry := 0 } 0 _ _ rfl

/-- C6: `getNetSalary` returns
`max 0 (S - (income tax + social security + employee pension + employee
study fund))`, which lies between `0` and `S`. -/
theorem C6_net_salary (S p : ℚ) (hS : 0 ≤ S) (hp : 0 ≤ p) :
    (getNetSalary S p).netSalary
      = max 0 (S - (calculateIncomeTax S p + calculateBituachLeumi S +
          (calculatePensionContributions S).employee +
          (calculateStudyFundContributions S).employee)) ∧
    0 ≤ (getNetSalary S p).netSalary ∧
    (getNetSalary S p).netSalary ≤ S := by
  refine ⟨rfl, le_max_left 0 _, ?_⟩
  have htax : 0 ≤ calculateIncomeTax S p := le_max_left 0 _
  have hbl : 0 ≤ calculateBituachLeumi S := by
    unfold calculateBituachLeumi
    exact mul_nonneg (le_min hS (by norm_num [BITUACH_LEUMI_CEILING]))
      (by norm_num [BITUACH_LEUMI_RATE])
  have hpen : 0 ≤ (calculatePensionContributions S).employee := by
    unfold calculatePensionContributions
    exact mul_nonneg (le_min hS (by norm_num [PENSION_MAX_MONTHLY_SALARY]))
      (by norm_num [PENSION_EMPLOYEE_RATE])
  have hsf : 0 ≤ (calculateStudyFundContributions S).employee := by
    unfold calculateStudyFundContributions
    exact mul_nonneg (le_min hS (by norm_num [STUDY_FUND_MAX_MONTHLY_SALARY]))
      (by norm_num [STUDY_FUND_EMPLOYEE_RATE])
  show max 0 (S - _) ≤ S
  exact max_le hS (sub_le_self S (by positivity))

/-- C6 witness: the net-salary characterisation at `S = 10000`,
`p = 2.25`. -/
theorem C6_witness :
    (getNetSalary 10000 (225/100)).netSalary
      = max 0 (10000 - (calculateIncomeTax 10000 (225/100) +
          calculateBituachLeumi 10000 +
          (calculatePensionContributions 10000).employee +
          (calculateStudyFundContributions 10000).employee)) ∧
    0 ≤ (getNetSalary 10000 (225/100)).netSalary ∧
    (getNetSalary 10000 (225/100)).netSalary ≤ 10000 :=
  C6_net_salary 10000 (225/100) (by norm_num) (by norm_num)

/-- C8: converting an amount USD→ILS and back ILS→USD at the same positive
rate is the identity (exactly, in rational arithmetic). -/
theorem C8_round_trip (r X : ℚ) (hr : 0 < r) :
    convertCurrency r (convertCurrency r X Currency.USD Currency.ILS)
      Currency.ILS Currency.USD = X := by
  have hdef : convertCurrency r (convertCurrency r X Currency.USD Currency.ILS)
      Currency.ILS Currency.USD = X * r / r := rfl
  rw [hdef, mul_div_cancel_right₀ X (ne_of_gt hr)]

/-- C8 witness: the round trip at rate `3.7` and amount `100`. -/
theorem C8_witness :
    convertCurrency (37/10) (convertCurrency (37/10) 100 Currency.USD Currency.ILS)
      Currency.ILS Currency.USD = 100 :=
  C8_round_trip (37/10) 100 (by norm_num)

/-- C2: a 4800-share grant with a standard 4-year schedule and a 12-month
cliff produces exactly 16 vesting events; the first event's shares are at
least the cliff-adjusted tranche (1500 = 300 × (12/3 + 1)); the final
event's cumulative shares equal the full 4800. -/
theorem C2_standard_vesting_4800 (g : EquityGrant) (ps : Option (List ℚ))
    (hvs : g.vestingSchedule
      = some (VestingSchedule.mk VestingType.standard 4 (some 12) ps))
    (hamt : g.amount = 4800) :
    (calculateVestingSchedule g).length = 16 ∧
    (∃ e, (calculateVestingSchedule g).head? = some e ∧ 1500 ≤ e.sharesVested) ∧
    (∃ e, (calculateVestingSchedule g).getLast? = some e ∧ e.cumulativeShares = 4800) := by
  have hev : calculateVestingSchedule g
      = (List.range 16).map (standardEvent g.vestingStartMonth 12 4800
          (g.currentStockPrice.getD 0) 4) := by
    simp [calculateVestingSchedule, hvs, hamt]
  refine ⟨by rw [hev]; simp, ?_, ?_⟩
  · refine ⟨standardEvent g.vestingStartMonth 12 4800 (g.currentStockPrice.getD 0) 4 0,
      by rw [hev]; rfl, ?_⟩
    norm_num [standardEvent]
  · refine ⟨standardEvent g.vestingStartMonth 12 4800 (g.currentStockPrice.getD 0) 4 15,
      by rw [hev]; rfl, ?_⟩
    norm_num [standardEvent]

/-- Concrete RSU grant exercising the C2 schedule. -/
def grantC2 : EquityGrant :=
  { type := EquityType.RSU, amount := 4800, vestingStartMonth := 0,
    vestingSchedule := some (VestingSchedule.mk VestingType.standard 4 (some 12) none),
    strikePrice := none, currentStockPrice := none, companyStage := none }

/-- C2 witness: the schedule shape at the concrete grant `grantC2`. -/
theorem C2_witness :
    (calculateVestingSchedule grantC2).length = 16 ∧
    (∃ e, (calculateVestingSchedule grantC2).head? = some e ∧ 1500 ≤ e.sharesVested) ∧
    (∃ e, (calculateVestingSchedule grantC2).getLast? = some e ∧
      e.cumulativeShares = 4800) :=
  C2_standard_vesting_4800 grantC2 none rfl rfl

/-- For a non-negative amount and exchange rate, the per-RSU-grant ILS
value is non-negative (whatever the stock price). -/
lemma rsuGrantValueILS_nonneg (r : ℚ) (g : EquityGrant) (hr : 0 ≤ r)
    (ha : 0 ≤ g.amount) : 0 ≤ rsuGrantValueILS r g := by
  simp only [rsuGrantValueILS, convertUSDToILS]
  split_ifs with h
  · exact mul_nonneg (mul_nonneg ha h.le) hr
  · exact le_rfl

/-- The per-RSU-grant post-tax value collapses to 65% of the grant value
whenever the grant value is non-negative: the capital-gains term
`max 0 (value - basis)` with basis = value is identically zero. -/
lemma rsuPostTaxILS_eq (r : ℚ) (g : EquityGrant)
    (h : 0 ≤ rsuGrantValueILS r g) :
    rsuPostTaxILS r g = (65/100) * rsuGrantValueILS r g := by
  have hcg : calculateCapitalGains
      (max 0 (rsuGrantValueILS r g - rsuGrantValueILS r g)) = 0 := by
    simp [calculateCapitalGains]
  show max 0 (rsuGrantValueILS r g - (rsuGrantValueILS r g * (35/100) +
      calculateCapitalGains (max 0 (rsuGrantValueILS r g - rsuGrantValueILS r g))))
    = (65/100) * rsuGrantValueILS r g
  rw [hcg, add_zero, max_eq_right (by linarith)]
  ring

/-- RSU grant with a negative share amount but a non-negative stock
price, used to refute C1 as stated. -/
def grantC1 : EquityGrant :=
  { type := EquityType.RSU, amount := -1, vestingStartMonth := 0,
    vestingSchedule := none, strikePrice := none,
    currentStockPrice := some 1, companyStage := none }

/-- C1 counterexample: for the RSU list `[grantC1]` (stock price `1 ≥ 0`,
amount `-1`) at rate `3.7`, the post-tax value is `0` (the per-grant
`max 0 (...)` clips the negative figure) while 65% of the current value is
`-2.405`, so the claimed identity fails without a non-negativity
assumption on the grant amounts. -/
theorem C1_counterexample :
    0 ≤ grantC1.currentStockPrice.getD 0 ∧
    (valueRSUs (37/10) [grantC1]).postTaxValue
      ≠ (65/100) * (valueRSUs (37/10) [grantC1]).currentValue := by
  have hfil : [grantC1].filter (fun g => g.type == EquityType.RSU) = [grantC1] := rfl
  have hval : rsuGrantValueILS (37/10) grantC1 = -37/10 := by
    norm_num [rsuGrantValueILS, convertUSDToILS, grantC1]
  have hpt : rsuPostTaxILS (37/10) grantC1 = 0 := by
    show max 0 (rsuGrantValueILS (37/10) grantC1 -
        (rsuGrantValueILS (37/10) grantC1 * (35/100) +
          calculateCapitalGains (max 0 (rsuGrantValueILS (37/10) grantC1 -
            rsuGrantValueILS (37/10) grantC1)))) = 0
    rw [hval]
    norm_num [calculateCapitalGains]
  refine ⟨by norm_num [grantC1], ?_⟩
  show (([grantC1].filter (fun g => g.type == EquityType.RSU)).map
      (rsuPostTaxILS (37/10))).sum
    ≠ (65/100) * (([grantC1].filter (fun g => g.type == EquityType.RSU)).map
      (rsuGrantValueILS (37/10))).sum
  rw [hfil]
  simp only [List.map_cons, List.map_nil, List.sum_cons, List.sum_nil]
  rw [hval, hpt]
  norm_num

/-- C1 (amended): for every list of RSU grants with non-negative amounts
and non-negative stock prices, valued at a non-negative exchange rate, the
capital-gains component vanishes (basis = vesting value) and the post-tax
value is exactly 65% of the current value. -/
theorem C1_amended_rsu_post_tax (r : ℚ) (grants : List EquityGrant) (hr : 0 ≤ r)
    (h : ∀ g ∈ grants, 0 ≤ g.amount ∧ 0 ≤ g.currentStockPrice.getD 0) :
    (valueRSUs r grants).postTaxValue
      = (65/100) * (valueRSUs r grants).currentValue := by
  show ((grants.filter (fun g => g.type == EquityType.RSU)).map (rsuPostTaxILS r)).sum
    = (65/100) * ((grants.filter (fun g => g.type == EquityType.RSU)).map
        (rsuGrantValueILS r)).sum
  rw [← List.sum_map_mul_left]
  apply congrArg List.sum
  apply List.map_congr_left
  intro g hg
  have hmem := (List.mem_filter.mp hg).1
  exact rsuPostTaxILS_eq r g (rsuGrantValueILS_nonneg r g hr (h g hmem).1)

/-- Well-formed RSU grant used to witness the amended C1. -/
def grantC1w : EquityGrant :=
  { type := EquityType.RSU, amount := 10, vestingStartMonth := 0,
    vestingSchedule := none, strikePrice := none,
    currentStockPrice := some 2, companyStage := none }

/-- C1 witness: the amended identity at a concrete well-formed grant. -/
theorem C1_witness :
    (valueRSUs 2 [grantC1w]).postTaxValue
      = (65/100) * (valueRSUs 2 [grantC1w]).currentValue :=
  C1_amended_rsu_post_tax 2 [grantC1w] (by norm_num)
    (by intro g hg
        rw [List.mem_singleton.mp hg]
        norm_num [grantC1w])

/-- Purchase price as stated by the amended C7: the explicit strike value
when present and nonzero, otherwise 85% of the current price. -/
def purchasePriceSpec (strike : Option ℚ) (price : ℚ) : ℚ :=
  match strike with
  | some s => if s ≠ 0 then s else price * (85/100)
  | none => price * (85/100)

/-- ESPP grant with an explicit strike price of `0`, used to refute C7 as
stated. -/
def grantC7 : EquityGrant :=
  { type := EquityType.ESPP, amount := 1, vestingStartMonth := 0,
    vestingSchedule := none, strikePrice := some 0,
    currentStockPrice := some 10, companyStage := none }

/-- C7 counterexample: `grantC7` carries an explicit strike of `0`, so the
claim's per-grant gross value is `1 × (10 - 0) = 10` (at rate 1), but the
code treats `0` as "no explicit value" (JavaScript `||`) and falls back to
the 85% default, producing `1 × (10 - 8.5) = 1.5`. -/
theorem C7_counterexample :
    grantC7.strikePrice = some 0 ∧
    (valueESPP 1 [grantC7]).currentValue
      ≠ grantC7.amount * (grantC7.currentStockPrice.getD 0 - 0) * 1 := by
  have hfil : [grantC7].filter (fun g => g.type == EquityType.ESPP) = [grantC7] := rfl
  have hval : esppGrantValueILS 1 grantC7 = 3/2 := by
    norm_num [esppGrantValueILS, esppPurchasePrice, convertUSDToILS, grantC7]
  refine ⟨rfl, ?_⟩
  show (([grantC7].filter (fun g => g.type == EquityType.ESPP)).map
      (esppGrantValueILS 1)).sum ≠ _
  rw [hfil]
  simp only [List.map_cons, List.map_nil, List.sum_cons, List.sum_nil]
  rw [hval]
  norm_num [grantC7]

/-- C7 (amended): for every list of ESPP grants whose discount
`currentPrice - purchasePrice` is strictly positive — `purchasePrice`
defaulting to 85% of the current price when the strike field is unset *or
equal to 0* — `valueESPP` computes each grant's gross (ILS) value as
`amount × (currentPrice - purchasePrice) × rate`, returns an empty
vesting-event list, and its risk adjustment is the identity. -/
theorem C7_amended_espp (r : ℚ) (grants : List EquityGrant)
    (hpos : ∀ g ∈ grants, g.type = EquityType.ESPP →
      0 < g.currentStockPrice.getD 0 -
        purchasePriceSpec g.strikePrice (g.currentStockPrice.getD 0)) :
    (valueESPP r grants).currentValue
      = ((grants.filter (fun g => g.type == EquityType.ESPP)).map
          (fun g => g.amount * (g.currentStockPrice.getD 0 -
            purchasePriceSpec g.strikePrice (g.currentStockPrice.getD 0)) * r)).sum ∧
    (valueESPP r grants).vestingSchedule = [] ∧
    (valueESPP r grants).riskAdjustedValue = (valueESPP r grants).currentValue := by
  have hpp : ∀ g : EquityGrant,
      esppPurchasePrice g
        = purchasePriceSpec g.strikePrice (g.currentStockPrice.getD 0) := by
    intro g
    cases hsp : g.strikePrice with
    | none => simp [esppPurchasePrice, purchasePriceSpec, hsp]
    | some s =>
      by_cases hz : s = 0 <;>
        simp [esppPurchasePrice, purchasePriceSpec, hsp, hz]
  refine ⟨?_, rfl, rfl⟩
  show ((grants.filter (fun g => g.type == EquityType.ESPP)).map
      (esppGrantValueILS r)).sum = _
  apply congrArg List.sum
  apply List.map_congr_left
  intro g hg
  obtain ⟨hmem, hty⟩ := List.mem_filter.mp hg
  have hty2 : g.type = EquityType.ESPP := by simpa using hty
  have hd := hpos g hmem hty2
  rw [← hpp g] at hd
  simp only [esppGrantValueILS, convertUSDToILS]
  rw [if_pos hd, hpp g]

/-- Well-formed ESPP grant (default purchase price, positive discount)
used to witness the amended C7. -/
def grantC7w : EquityGrant :=
  { type := EquityType.ESPP, amount := 20, vestingStartMonth := 0,
    vestingSchedule := none, strikePrice := none,
    currentStockPrice := some 100, companyStage := none }

/-- C7 witness: the amended characterisation at a concrete ESPP grant. -/
theorem C7_witness :
    (valueESPP (37/10) [grantC7w]).currentValue
      = (([grantC7w].filter (fun g => g.type == EquityType.ESPP)).map
          (fun g => g.amount * (g.currentStockPrice.getD 0 -
            purchasePriceSpec g.strikePrice (g.currentStockPrice.getD 0)) * (37/10))).sum ∧
    (valueESPP (37/10) [grantC7w]).vestingSchedule = [] ∧
    (valueESPP (37/10) [grantC7w]).riskAdjustedValue
      = (valueESPP (37/10) [grantC7w]).currentValue :=
  C7_amended_espp (37/10) [grantC7w]
    (by intro g hg _
        rw [List.mem_singleton.mp hg]
        norm_num [grantC7w, purchasePriceSpec])

/-- Sum of a function over `List.range (m+1)` when the function is
constant from index 1 on. -/
lemma range_succ_map_sum (f : ℕ → ℚ) (q : ℚ) (m : ℕ)
    (hfs : ∀ k, f (k + 1) = q) :
    ((List.range (m + 1)).map f).sum = f 0 + m * q := by
  rw [List.range_succ_eq_map, List.map_cons, List.sum_cons, List.map_map]
  congr 1
  have hconst : (List.range m).map (f ∘ Nat.succ) = List.replicate m q := by
    have hfun : (f ∘ Nat.succ) = fun _ => q := funext fun k => hfs k
    rw [hfun, List.map_const', List.length_range]
  rw [hconst, List.sum_replicate, nsmul_eq_mul]

/-- Standard-schedule grant with zero shares: every vesting event carries
zero shares, used to refute the strictness part of C9 as stated. -/
def grantC9 : EquityGrant :=
  { type := EquityType.RSU, amount := 0, vestingStartMonth := 0,
    vestingSchedule := some (VestingSchedule.mk VestingType.standard 1 (some 3) none),
    strikePrice := none, currentStockPrice := none, companyStage := none }

/-- C9 counterexample: `grantC9` has a standard schedule with
`totalYears = 1 > 0` and `cliffMonths = 3 > 0`, but amount `0`; the summed
shares equal the grant amount (both `0`) instead of strictly exceeding it,
so C9 needs a positive-amount hypothesis. -/
theorem C9_counterexample :
    grantC9.vestingSchedule
      = some (VestingSchedule.mk VestingType.standard 1 (some 3) none) ∧
    ¬ grantC9.amount <
        ((calculateVestingSchedule grantC9).map VestingEvent.sharesVested).sum := by
  have hev : calculateVestingSchedule grantC9
      = (List.range 4).map (standardEvent 0 3 0 0 1) := by
    simp [calculateVestingSchedule, grantC9]
  have hrange : List.range 4 = [0, 1, 2, 3] := rfl
  refine ⟨rfl, ?_⟩
  rw [hev, hrange]
  norm_num [standardEvent, grantC9]

/-- C9 (amended): for a grant with positive amount and a standard schedule
with `totalYears > 0` and `cliffMonths > 0`, the schedule is internally
inconsistent: the shares summed over all events equal
`amount + (amount/(totalYears*4)) * (cliffMonths/3)`, strictly more than
the grant amount; every event's cumulative shares are
`(index+1) * amount/(totalYears*4)`; and the first event's cumulative
shares are strictly below its own vested shares. -/
theorem C9_amended_standard_schedule (g : EquityGrant) (vs : VestingSchedule)
    (hvs : g.vestingSchedule = some vs) (ht : vs.type = VestingType.standard)
    (hY : 0 < vs.totalYears) (hc : 0 < vs.cliffMonths.getD 0)
    (hamt : 0 < g.amount) :
    (((calculateVestingSchedule g).map VestingEvent.sharesVested).sum
        = g.amount + g.amount / ((vs.totalYears : ℚ) * 4)
            * ((vs.cliffMonths.getD 0 : ℚ) / 3)) ∧
    g.amount < ((calculateVestingSchedule g).map VestingEvent.sharesVested).sum ∧
    (∀ (i : ℕ) (e : VestingEvent), (calculateVestingSchedule g)[i]? = some e →
        e.cumulativeShares
          = ((i : ℚ) + 1) * (g.amount / ((vs.totalYears : ℚ) * 4))) ∧
    (∃ e, (calculateVestingSchedule g).head? = some e ∧
        e.cumulativeShares < e.sharesVested) := by
  have hev : calculateVestingSchedule g
      = (List.range (vs.totalYears * 4)).map
          (standardEvent g.vestingStartMonth (vs.cliffMonths.getD 0) g.amount
            (g.currentStockPrice.getD 0) vs.totalYears) := by
    simp [calculateVestingSchedule, hvs, ht]
  obtain ⟨m, hm⟩ : ∃ m, vs.totalYears * 4 = m + 1 :=
    ⟨vs.totalYears * 4 - 1, by omega⟩
  have hYq : (0:ℚ) < (vs.totalYears : ℚ) * 4 := by
    have : (0:ℚ) < (vs.totalYears : ℚ) := by exact_mod_cast hY
    linarith
  have hq_pos : 0 < g.amount / ((vs.totalYears : ℚ) * 4) := div_pos hamt hYq
  have hcq : (0:ℚ) < (vs.cliffMonths.getD 0 : ℚ) := by exact_mod_cast hc
  have hshares0 : (standardEvent g.vestingStartMonth (vs.cliffMonths.getD 0) g.amount
      (g.currentStockPrice.getD 0) vs.totalYears 0).sharesVested
      = g.amount / ((vs.totalYears : ℚ) * 4) * ((vs.cliffMonths.getD 0 : ℚ) / 3 + 1) := by
    simp [standardEvent, hc]
  have hsharesS : ∀ k, (standardEvent g.vestingStartMonth (vs.cliffMonths.getD 0) g.amount
      (g.currentStockPrice.getD 0) vs.totalYears (k + 1)).sharesVested
      = g.amount / ((vs.totalYears : ℚ) * 4) := by
    intro k
    simp [standardEvent]
  have hcast : ((m:ℚ) + 1) = (vs.totalYears : ℚ) * 4 := by
    have h1 := congrArg (Nat.cast : ℕ → ℚ) hm
    push_cast at h1
    linarith
  have hamt_eq : g.amount
      = g.amount / ((vs.totalYears : ℚ) * 4) * ((m:ℚ) + 1) := by
    rw [hcast, div_mul_cancel₀ _ (ne_of_gt hYq)]
  have hsum : ((calculateVestingSchedule g).map VestingEvent.sharesVested).sum
      = g.amount + g.amount / ((vs.totalYears : ℚ) * 4)
          * ((vs.cliffMonths.getD 0 : ℚ) / 3) := by
    rw [hev, List.map_map, hm,
      range_succ_map_sum _ (g.amount / ((vs.totalYears : ℚ) * 4)) m
        (fun k => hsharesS k)]
    show (standardEvent g.vestingStartMonth (vs.cliffMonths.getD 0) g.amount
        (g.currentStockPrice.getD 0) vs.totalYears 0).sharesVested + _ = _
    rw [hshares0]
    nth_rewrite 3 [hamt_eq]
    ring
  have hprod : 0 < g.amount / ((vs.totalYears : ℚ) * 4)
      * ((vs.cliffMonths.getD 0 : ℚ) / 3) :=
    mul_pos hq_pos (by linarith)
  refine ⟨hsum, by rw [hsum]; linarith, ?_, ?_⟩
  · intro i e h
    rw [hev, List.getElem?_map] at h
    by_cases hi : i < vs.totalYears * 4
    · rw [List.getElem?_range hi] at h
      simp only [Option.map_some'] at h
      injection h with h
      rw [← h]
      rfl
    · rw [List.getElem?_eq_none (by simpa using Nat.le_of_not_lt hi)] at h
      simp at h
  · refine ⟨standardEvent g.vestingStartMonth (vs.cliffMonths.getD 0) g.amount
      (g.currentStockPrice.getD 0) vs.totalYears 0, ?_, ?_⟩
    · rw [hev, hm, List.range_succ_eq_map, List.map_cons, List.head?_cons]
    · have hcum0 : (standardEvent g.vestingStartMonth (vs.cliffMonths.getD 0) g.amount
          (g.currentStockPrice.getD 0) vs.totalYears 0).cumulativeShares
          = ((0:ℚ) + 1) * (g.amount / ((vs.totalYears : ℚ) * 4)) := rfl
      rw [hcum0, hshares0]
      nlinarith [hprod, hq_pos]

/-- Standard 1-year schedule with a 3-month cliff, for the C9 witness. -/
def vsC9w : VestingSchedule := ⟨VestingType.standard, 1, some 3, none⟩

/-- Positive-amount grant on `vsC9w`, for the C9 witness. -/
def grantC9w : EquityGrant :=
  { type := EquityType.RSU, amount := 400, vestingStartMonth := 0,
    vestingSchedule := some vsC9w, strikePrice := none,
    currentStockPrice := none, companyStage := none }

/-- C9 witness: the amended schedule facts at the concrete grant
`grantC9w`. -/
theorem C9_witness :
    (((calculateVestingSchedule grantC9w).map VestingEvent.sharesVested).sum
        = grantC9w.amount + grantC9w.amount / ((vsC9w.totalYears : ℚ) * 4)
            * ((vsC9w.cliffMonths.getD 0 : ℚ) / 3)) ∧
    grantC9w.amount
      < ((calculateVestingSchedule grantC9w).map VestingEvent.sharesVested).sum ∧
    (∀ (i : ℕ) (e : VestingEvent), (calculateVestingSchedule grantC9w)[i]? = some e →
        e.cumulativeShares
          = ((i : ℚ) + 1) * (grantC9w.amount / ((vsC9w.totalYears : ℚ) * 4))) ∧
    (∃ e, (calculateVestingSchedule grantC9w).head? = some e ∧
        e.cumulativeShares < e.sharesVested) :=
  C9_amended_standard_schedule grantC9w vsC9w rfl rfl (by norm_num [vsC9w])
    (by norm_num [vsC9w]) (by norm_num [grantC9w])

/-- Replace a grant's `companyStage` field, leaving all valuation-relevant
fields untouched. -/
def setCompanyStage (s : Option CompanyStage) (g : EquityGrant) : EquityGrant :=
  { g with companyStage := s }

/-- A filtered map-sum over grants is unchanged when the company stages of
the list are rewritten arbitrarily, provided the filter and the valuation
ignore the stage field. -/
lemma filter_map_sum_setStage (p : EquityGrant → Bool)
    (hp : ∀ (s : Option CompanyStage) (g : EquityGrant), p (setCompanyStage s g) = p g)
    (v : EquityGrant → ℚ)
    (hv : ∀ (s : Option CompanyStage) (g : EquityGrant), v (setCompanyStage s g) = v g)
    (f : EquityGrant → Option CompanyStage) (t : List EquityGrant) :
    (((t.map fun x => setCompanyStage (f x) x).filter p).map v).sum
      = ((t.filter p).map v).sum := by
  induction t with
  | nil => rfl
  | cons a t ih =>
    simp only [List.map_cons, List.filter_cons, hp (f a) a]
    by_cases hpa : p a = true
    · simp only [if_pos hpa, List.map_cons, List.sum_cons, hv (f a) a, ih]
    · simp only [if_neg hpa, ih]

/-- The RSU per-grant value ignores the company stage. -/
lemma rsuGrantValueILS_setStage (r : ℚ) (s : Option CompanyStage) (g : EquityGrant) :
    rsuGrantValueILS r (setCompanyStage s g) = rsuGrantValueILS r g := rfl

/-- The option per-grant value ignores the company stage. -/
lemma optionGrantValueILS_setStage (r : ℚ) (s : Option CompanyStage) (g : EquityGrant) :
    optionGrantValueILS r (setCompanyStage s g) = optionGrantValueILS r g := rfl

/-- C10: in `valueRSUs` and `valueStockOptions` the risk-adjusted value is
the total current value times the discount factor of the *first* grant's
company stage (`public` when the list is empty or the first grant has no
stage); rewriting the stages of all non-first grants never changes the
risk-adjusted value. -/
theorem C10_risk_first_stage :
    ∀ (r : ℚ) (grants : List EquityGrant),
      ((valueRSUs r grants).riskAdjustedValue
        = (valueRSUs r grants).currentValue * discountFactor (headCompanyStage grants)) ∧
      ((valueStockOptions r grants).riskAdjustedValue
        = (valueStockOptions r grants).currentValue
            * discountFactor (headCompanyStage grants)) ∧
      ∀ (g : EquityGrant) (t : List EquityGrant) (f : EquityGrant → Option CompanyStage),
        (valueRSUs r (g :: t.map fun x => setCompanyStage (f x) x)).riskAdjustedValue
          = (valueRSUs r (g :: t)).riskAdjustedValue ∧
        (valueStockOptions r
            (g :: t.map fun x => setCompanyStage (f x) x)).riskAdjustedValue
          = (valueStockOptions r (g :: t)).riskAdjustedValue := by
  intro r grants
  refine ⟨rfl, rfl, ?_⟩
  intro g t f
  have hcurR : (valueRSUs r (g :: t.map fun x => setCompanyStage (f x) x)).currentValue
      = (valueRSUs r (g :: t)).currentValue := by
    show ((((g :: t.map fun x => setCompanyStage (f x) x).filter
        (fun x => x.type == EquityType.RSU)).map (rsuGrantValueILS r)).sum)
      = ((((g :: t).filter (fun x => x.type == EquityType.RSU)).map
          (rsuGrantValueILS r)).sum)
    simp only [List.filter_cons]
    by_cases hpg : (g.type == EquityType.RSU) = true
    · simp only [if_pos hpg, List.map_cons, List.sum_cons]
      rw [filter_map_sum_setStage (fun x => x.type == EquityType.RSU)
        (fun s x => rfl) (rsuGrantValueILS r) (fun s x => rfl)]
    · simp only [if_neg hpg]
      rw [filter_map_sum_setStage (fun x => x.type == EquityType.RSU)
        (fun s x => rfl) (rsuGrantValueILS r) (fun s x => rfl)]
  have hcurO : (valueStockOptions r
        (g :: t.map fun x => setCompanyStage (f x) x)).currentValue
      = (valueStockOptions r (g :: t)).currentValue := by
    show ((((g :: t.map fun x => setCompanyStage (f x) x).filter
        (fun x => x.type == EquityType.ISO || x.type == EquityType.NQSO)).map
          (optionGrantValueILS r)).sum)
      = ((((g :: t).filter
          (fun x => x.type == EquityType.ISO || x.type == EquityType.NQSO)).map
          (optionGrantValueILS r)).sum)
    simp only [List.filter_cons]
    by_cases hpg : (g.type == EquityType.ISO || g.type == EquityType.NQSO) = true
    · simp only [if_pos hpg, List.map_cons, List.sum_cons]
      rw [filter_map_sum_setStage
        (fun x => x.type == EquityType.ISO || x.type == EquityType.NQSO)
        (fun s x => rfl) (optionGrantValueILS r) (fun s x => rfl)]
    · simp only [if_neg hpg]
      rw [filter_map_sum_setStage
        (fun x => x.type == EquityType.ISO || x.type == EquityType.NQSO)
        (fun s x => rfl) (optionGrantValueILS r) (fun s x => rfl)]
  constructor
  · show applyRiskDiscount
        (valueRSUs r (g :: t.map fun x => setCompanyStage (f x) x)).currentValue
        (headCompanyStage (g :: t.map fun x => setCompanyStage (f x) x))
      = applyRiskDiscount (valueRSUs r (g :: t)).currentValue
          (headCompanyStage (g :: t))
    rw [hcurR]
    rfl
  · show applyRiskDiscount
        (valueStockOptions r (g :: t.map fun x => setCompanyStage (f x) x)).currentValue
        (headCompanyStage (g :: t.map fun x => setCompanyStage (f x) x))
      = applyRiskDiscount (valueStockOptions r (g :: t)).currentValue
          (headCompanyStage (g :: t))
    rw [hcurO]
    rfl

/-- Membership in a conditional singleton error list. -/
lemma mem_if_singleton {c : Prop} [Decidable c] (s x : String) :
    s ∈ (if c then [x] else []) ↔ c ∧ s = x := by
  split_ifs with h <;> simp [h]

/-- The strike-price message appears in a grant's error block exactly when
the grant is an option whose strike price is falsy (`undefined` or `0`) or
negative. -/
lemma strike_mem_grantErrors (g : EquityGrant) :
    strikePriceError ∈ grantErrors g ↔
      ((g.type == EquityType.ISO || g.type == EquityType.NQSO)
        && (strikeFalsy g.strikePrice || strikeNegative g.strikePrice)) = true := by
  have h1 : strikePriceError ≠ amountError := by decide
  have h2 : strikePriceError ≠ stockPriceError := by decide
  simp [grantErrors, mem_if_singleton, h1, h2]

/-- The strike-price message appears in the output of `validateInputs`
exactly when some grant of the package triggers the option strike check. -/
lemma strike_mem_validateInputs (pkg : CompensationPackage) :
    strikePriceError ∈ (validateInputs pkg).errors ↔
      ∃ g ∈ pkg.grants,
        ((g.type == EquityType.ISO || g.type == EquityType.NQSO)
          && (strikeFalsy g.strikePrice || strikeNegative g.strikePrice)) = true := by
  have h1 : strikePriceError ≠ baseSalaryError := by decide
  have h2 : strikePriceError ≠ highSalaryIlsError := by decide
  have h3 : strikePriceError ≠ highSalaryUsdError := by decide
  have h4 : strikePriceError ≠ pensionRangeError := by decide
  have h5 : strikePriceError ≠ studyFundRangeError := by decide
  have h6 : strikePriceError ≠ vacationRangeError := by decide
  simp [validateInputs, mem_if_singleton, h1, h2, h3, h4, h5, h6,
    List.mem_flatten, strike_mem_grantErrors]

/-- C3 (amended): `validateInputs` emits the strike-price error for an
ISO/NQSO grant exactly when that grant's strike price is absent, zero, or
negative — i.e. absent or non-positive; an explicit strike price of `0`
*does* trigger the error, because `!grant.strikePrice` treats `0` as
missing. -/
theorem C3_amended_strike_error_iff (pkg : CompensationPackage) :
    strikePriceError ∈ (validateInputs pkg).errors ↔
      ∃ g ∈ pkg.grants,
        (g.type = EquityType.ISO ∨ g.type = EquityType.NQSO) ∧
        (g.strikePrice = none ∨ ∃ s, g.strikePrice = some s ∧ s ≤ 0) := by
  rw [strike_mem_validateInputs]
  have hiff : ∀ g : EquityGrant,
      ((g.type == EquityType.ISO || g.type == EquityType.NQSO)
        && (strikeFalsy g.strikePrice || strikeNegative g.strikePrice)) = true ↔
      (g.type = EquityType.ISO ∨ g.type = EquityType.NQSO) ∧
        (g.strikePrice = none ∨ ∃ s, g.strikePrice = some s ∧ s ≤ 0) := by
    intro g
    cases hsp : g.strikePrice with
    | none => simp [strikeFalsy, strikeNegative]
    | some s =>
      simp only [strikeFalsy, strikeNegative, Bool.and_eq_true, Bool.or_eq_true,
        beq_iff_eq, decide_eq_true_eq, Option.some.injEq,
        reduceCtorEq, false_or]
      constructor
      · rintro ⟨hty, hs⟩
        refine ⟨hty, ⟨s, rfl, ?_⟩⟩
        rcases hs with hs | hs
        · exact le_of_eq hs
        · exact le_of_lt hs
      · rintro ⟨hty, ⟨s2, hs2, hle⟩⟩
        subst hs2
        refine ⟨hty, ?_⟩
        rcases lt_or_eq_of_le hle with hlt | heq
        · exact Or.inr hlt
        · exact Or.inl heq
  constructor
  · rintro ⟨g, hg, hcond⟩
    exact ⟨g, hg, (hiff g).mp hcond⟩
  · rintro ⟨g, hg, hcond⟩
    exact ⟨g, hg, (hiff g).mpr hcond⟩

/-- ISO grant carrying an explicit strike price of exactly `0`, used to
refute C3 as stated. -/
def grantC3 : EquityGrant :=
  { type := EquityType.ISO, amount := 100, vestingStartMonth := 0,
    vestingSchedule := none, strikePrice := some 0,
    currentStockPrice := some 10, companyStage := none }

/-- Package whose only potential validation error is the strike check on
`grantC3`. -/
def pkgC3 : CompensationPackage :=
  { salary := { baseSalary := 100, currency := Currency.ILS },
    benefits := { pensionFund := { employerContribution := 6 },
                  studyFund := { employerContribution := 7 },
                  vacationDays := 20 },
    grants := [grantC3] }

/-- C3 counterexample: the sole grant of `pkgC3` is an ISO with strike
price exactly `0` (a non-negative value), yet `validateInputs` emits the
strike-price error — `!grant.strikePrice` treats `0` as missing. -/
theorem C3_counterexample :
    pkgC3.grants.map EquityGrant.type = [EquityType.ISO] ∧
    pkgC3.grants.map EquityGrant.strikePrice = [some 0] ∧
    strikePriceError ∈ (validateInputs pkgC3).errors := by
  refine ⟨rfl, rfl, ?_⟩
  rw [strike_mem_validateInputs]
  refine ⟨grantC3, List.Mem.head _, ?_⟩
  simp [grantC3, strikeFalsy]

end TcCalc
